import Mathlib

/-!
Shallow embedding of the proxy bidirectional pipe device (proxy.c).

The device couples two endpoints, east and west, through two circular
buffers (`ewbuf` carries east-to-west traffic, `webuf` the reverse).
Each buffer has a write cursor `widx`, a read cursor `ridx`, and a close
index `cidx` which is `-1` while the transmitting side is open.

Machine `int` cursors always stay in `[0, buffersize)` in the source, so
they are embedded as `Nat`; `cidx` is embedded as `Int` because of the
`-1` open sentinel; the open counter `nopen` is an `int` and is embedded
as `Int`.  The byte storage `buf` is embedded as a total function from
index to byte value.  The blocking wait loops of `proxy_read` and
`proxy_write` are embedded by their sequential semantics: when the wait
predicate fails the call either returns `EWOULDBLOCK` (non-blocking
mode) or suspends, which the outcome type records as `blocks`.
-/

/-- Embedding of `struct cirbuf` (proxy.c 39-45): storage, write index,
read index and close index.  The wait queue head is not sequential
state and is omitted. -/
structure cirbuf where
  buf : Nat → Nat
  widx : Nat
  ridx : Nat
  cidx : Int

/-- Embedding of `struct px` (proxy.c 53-63): the two directional
buffers, the open count, the two side-identity slots (the `struct file`
pointers, embedded as optional opaque numeric identities) and the two
recorded access modes.  `minor` and the semaphore are omitted. -/
structure px where
  ewbuf : cirbuf
  webuf : cirbuf
  nopen : Int
  east : Option Nat
  west : Option Nat
  eastaccmode : Nat
  westaccmode : Nat

/-- Outcome of a read call: `ok xs` is a return of `xs.length` bytes
with payload `xs`, `wouldBlock` is `-EWOULDBLOCK`, and `blocks` records
that a blocking-mode call suspends on the wait queue. -/
inductive ReadOut where
  | ok (data : List Nat)
  | wouldBlock
  | blocks
deriving DecidableEq

/-- Outcome of a write call: `ok n` is a successful return of `n` bytes
transferred, `wouldBlock` is `-EWOULDBLOCK`, `blocks` records that a
blocking-mode call suspends. -/
inductive WriteOut where
  | ok (n : Nat)
  | wouldBlock
  | blocks
deriving DecidableEq

/-- Outcome of an open call: success or `-EBUSY`. -/
inductive OpenOut where
  | ok
  | busy
deriving DecidableEq

/-- Embedding of a `copy_from_user`/`memcpy` into the storage: the bytes
of `src` are placed at consecutive indices starting at `dst`. -/
def memcpyIn (d : Nat → Nat) (dst : Nat) (src : List Nat) : Nat → Nat :=
  fun j => if dst ≤ j ∧ j < dst + src.length then src.getD (j - dst) 0 else d j

/-- Embedding of a `copy_to_user`/`memcpy` out of the storage: the `len`
bytes at consecutive indices starting at `src`. -/
def memcpyOut (d : Nat → Nat) (src len : Nat) : List Nat :=
  (List.range len).map (fun i => d (src + i))

/-- `is_full` (proxy.c 312-319): a circular buffer is full when the read
index is one ahead of the write index, including the wrapped case. -/
def is_full (buffersize : Nat) (p : cirbuf) : Bool :=
  decide (((p.ridx : Int) - (p.widx : Int) = 1) ∨
    (p.ridx = 0 ∧ p.widx = buffersize - 1))

/-- Body of `proxy_read` acting on one buffer (proxy.c 345-400): EOF
check against `cidx`, empty check (blocking or `EWOULDBLOCK`), transfer
of `min count available` bytes in at most two copies split at the end
of the storage, and advance of `ridx` modulo the buffer size. -/
def cirbuf_read (buffersize : Nat) (count : Nat) (nonblock : Bool) (p : cirbuf) :
    ReadOut × cirbuf :=
  if (p.ridx : Int) = p.cidx then
    (ReadOut.ok [], p)
  else if p.ridx = p.widx then
    (if nonblock then ReadOut.wouldBlock else ReadOut.blocks, p)
  else
    let xfer0 : Int := (p.widx : Int) - (p.ridx : Int)
    let xfer1 : Int := if xfer0 < 0 then xfer0 + buffersize else xfer0
    let xfer : Nat := min count xfer1.toNat
    let cpcnt : Nat := min (buffersize - p.ridx) xfer
    let out := memcpyOut p.buf p.ridx cpcnt ++ memcpyOut p.buf 0 (xfer - cpcnt)
    let r1 := p.ridx + xfer
    let r2 := if r1 > buffersize - 1 then r1 - buffersize else r1
    (ReadOut.ok out, { p with ridx := r2 })

/-- Body of `proxy_write` acting on one buffer (proxy.c 431-486): wait
guard on `nopen != 2 || is_full`, transfer of `min count freespace`
bytes in at most two copies split at the end of the storage, advance of
`widx` modulo the buffer size, and the soft-EOF rule setting `cidx` on
a zero-length write. -/
def cirbuf_write (buffersize : Nat) (nopen : Int) (data : List Nat) (nonblock : Bool)
    (p : cirbuf) : WriteOut × cirbuf :=
  if nopen ≠ 2 ∨ is_full buffersize p = true then
    (if nonblock then WriteOut.wouldBlock else WriteOut.blocks, p)
  else
    let xfer0 : Int := (p.ridx : Int) - 1 - (p.widx : Int)
    let xfer1 : Int := if xfer0 < 0 then xfer0 + buffersize else xfer0
    let xfer : Nat := min data.length xfer1.toNat
    let cpcnt : Nat := min xfer (buffersize - p.widx)
    let b1 := memcpyIn p.buf p.widx (data.take cpcnt)
    let b2 := memcpyIn b1 0 ((data.drop cpcnt).take (xfer - cpcnt))
    let w1 := p.widx + xfer
    let w2 := if w1 > buffersize - 1 then w1 - buffersize else w1
    let c2 : Int := if data.length = 0 then (w2 : Int) else p.cidx
    (WriteOut.ok xfer, { p with buf := b2, widx := w2, cidx := c2 })

/-- `proxy_read` (proxy.c 322-401): route the caller to the buffer its
side reads (east reads `webuf`, west reads `ewbuf`); an identity that
matches neither side returns 0 bytes. -/
def proxy_read (buffersize : Nat) (fid : Nat) (count : Nat) (nonblock : Bool)
    (dev : px) : ReadOut × px :=
  if dev.east = some fid then
    let r := cirbuf_read buffersize count nonblock dev.webuf
    (r.1, { dev with webuf := r.2 })
  else if dev.west = some fid then
    let r := cirbuf_read buffersize count nonblock dev.ewbuf
    (r.1, { dev with ewbuf := r.2 })
  else
    (ReadOut.ok [], dev)

/-- `proxy_write` (proxy.c 404-486): route the caller to the buffer its
side writes (east writes `ewbuf`, west writes `webuf`); an identity
that matches neither side returns 0 bytes. -/
def proxy_write (buffersize : Nat) (fid : Nat) (data : List Nat) (nonblock : Bool)
    (dev : px) : WriteOut × px :=
  if dev.east = some fid then
    let r := cirbuf_write buffersize dev.nopen data nonblock dev.ewbuf
    (r.1, { dev with ewbuf := r.2 })
  else if dev.west = some fid then
    let r := cirbuf_write buffersize dev.nopen data nonblock dev.webuf
    (r.1, { dev with webuf := r.2 })
  else
    (WriteOut.ok 0, dev)

/-- `proxy_open` (proxy.c 211-278): reject a third open with `-EBUSY`,
otherwise count the open and bind the identity to the east slot when it
is free, else to the west slot; the bound side's inbound read cursor is
caught up to that buffer's write cursor, both close indices are cleared
and the side's access mode is recorded.  The lazy `kmalloc` of the
storage is embedded as always succeeding (the storage is total). -/
def proxy_open (fid : Nat) (f_flags : Nat) (dev : px) : OpenOut × px :=
  if dev.nopen ≥ 2 then
    (OpenOut.busy, dev)
  else
    let dev1 := { dev with nopen := dev.nopen + 1 }
    if dev1.east = none then
      (OpenOut.ok, { dev1 with
        east := some fid,
        webuf := { dev1.webuf with ridx := dev1.webuf.widx, cidx := -1 },
        ewbuf := { dev1.ewbuf with cidx := -1 },
        eastaccmode := f_flags })
    else if dev1.west = none then
      (OpenOut.ok, { dev1 with
        west := some fid,
        ewbuf := { dev1.ewbuf with ridx := dev1.ewbuf.widx, cidx := -1 },
        webuf := { dev1.webuf with cidx := -1 },
        westaccmode := f_flags })
    else
      (OpenOut.ok, dev1)

/-- `proxy_release` (proxy.c 281-308): count the close, clear the
caller's side slot and set the close index of the buffer that side
wrote to, to that buffer's current write cursor. -/
def proxy_release (fid : Nat) (dev : px) : px :=
  let dev1 := { dev with nopen := dev.nopen - 1 }
  if dev1.east = some fid then
    { dev1 with
      east := none,
      ewbuf := { dev1.ewbuf with cidx := (dev1.ewbuf.widx : Int) } }
  else if dev1.west = some fid then
    { dev1 with
      west := none,
      webuf := { dev1.webuf with cidx := (dev1.webuf.widx : Int) } }
  else
    dev1

/-- The access-mode mask `O_ACCMODE`. -/
def O_ACCMODE : Nat := 3

/-- The access mode `O_RDONLY`. -/
def O_RDONLY : Nat := 0

/-- The access mode `O_WRONLY`. -/
def O_WRONLY : Nat := 1

/-- Result of `proxy_poll`: whether `POLLOUT|POLLWRNORM` and
`POLLIN|POLLRDNORM` are reported. -/
structure PollOut where
  writable : Bool
  readable : Bool
deriving DecidableEq

/-- `proxy_poll` (proxy.c 489-539): readiness of the caller's side.
Writable needs outbound space, a connected peer, no end-of-file marker
already written at the current write cursor, a peer that is not
write-only and a caller that is not read-only; readable needs inbound
data or an observable end-of-file, a peer that is not read-only and a
caller that is not write-only. -/
def proxy_poll (buffersize : Nat) (fid : Nat) (f_flags : Nat) (dev : px) : PollOut :=
  if dev.west = some fid then
    { writable := decide (is_full buffersize dev.webuf = false ∧ dev.nopen = 2 ∧
        dev.webuf.cidx ≠ (dev.webuf.widx : Int) ∧
        (dev.eastaccmode &&& O_ACCMODE) ≠ O_WRONLY ∧
        (f_flags &&& O_ACCMODE) ≠ O_RDONLY),
      readable := decide ((dev.ewbuf.widx ≠ dev.ewbuf.ridx ∨
        (dev.ewbuf.ridx : Int) = dev.ewbuf.cidx) ∧
        (dev.eastaccmode &&& O_ACCMODE) ≠ O_RDONLY ∧
        (f_flags &&& O_ACCMODE) ≠ O_WRONLY) }
  else if dev.east = some fid then
    { writable := decide (is_full buffersize dev.ewbuf = false ∧ dev.nopen = 2 ∧
        dev.ewbuf.cidx ≠ (dev.ewbuf.widx : Int) ∧
        (dev.westaccmode &&& O_ACCMODE) ≠ O_WRONLY ∧
        (f_flags &&& O_ACCMODE) ≠ O_RDONLY),
      readable := decide ((dev.webuf.widx ≠ dev.webuf.ridx ∨
        (dev.webuf.ridx : Int) = dev.webuf.cidx) ∧
        (dev.westaccmode &&& O_ACCMODE) ≠ O_RDONLY ∧
        (f_flags &&& O_ACCMODE) ≠ O_WRONLY) }
  else
    { writable := false, readable := false }

/-- Bytes available to read, exactly as `proxy_read` computes them
(proxy.c 366-367). -/
def avail (buffersize : Nat) (p : cirbuf) : Nat :=
  (if (p.widx : Int) - p.ridx < 0 then (p.widx : Int) - p.ridx + buffersize
   else (p.widx : Int) - p.ridx).toNat

/-- Free space for writing, exactly as `proxy_write` computes it
(proxy.c 446-447). -/
def freespace (buffersize : Nat) (p : cirbuf) : Nat :=
  (if (p.ridx : Int) - 1 - p.widx < 0 then (p.ridx : Int) - 1 - p.widx + buffersize
   else (p.ridx : Int) - 1 - p.widx).toNat

/-- Iterated `proxy_write` of a list of payloads by one endpoint. -/
def proxy_writeAll (buffersize : Nat) (fid : Nat) (ws : List (List Nat))
    (nonblock : Bool) (dev : px) : px :=
  ws.foldl (fun d xs => (proxy_write buffersize fid xs nonblock d).2) dev

/-- Position of the i-th slot after position `r0` in a ring of
`buffersize` slots, for `r0 < buffersize` and `i ≤ buffersize`. -/
def ringidx (buffersize r0 i : Nat) : Nat :=
  if r0 + i < buffersize then r0 + i else r0 + i - buffersize

/-- Abstraction used for the FIFO proofs: the buffer holds exactly the
byte run `flat` starting at ring position `r0`, with `ridx` still at
`r0`, `widx` just past the run, and no close marker. -/
def WixInv (buffersize r0 : Nat) (flat : List Nat) (p : cirbuf) : Prop :=
  p.ridx = r0 ∧ p.widx = ringidx buffersize r0 flat.length ∧ p.cidx = -1 ∧
  ∀ i, i < flat.length → p.buf (ringidx buffersize r0 i) = flat.getD i 0

/-- The spec's side-occupancy count: one per present side identity. -/
def sideCount (dev : px) : Int :=
  (if dev.east = none then 0 else 1) + (if dev.west = none then 0 else 1)

lemma memcpyIn_in (d : Nat → Nat) (dst : Nat) (src : List Nat) (j : Nat)
    (h1 : dst ≤ j) (h2 : j < dst + src.length) :
    memcpyIn d dst src j = src.getD (j - dst) 0 := by
  simp [memcpyIn, h1, h2]

lemma memcpyIn_out (d : Nat → Nat) (dst : Nat) (src : List Nat) (j : Nat)
    (h : j < dst ∨ dst + src.length ≤ j) :
    memcpyIn d dst src j = d j := by
  simp only [memcpyIn]
  rw [if_neg (by omega)]

lemma length_memcpyOut (d : Nat → Nat) (src len : Nat) :
    (memcpyOut d src len).length = len := by
  simp [memcpyOut]

lemma getElem_memcpyOut (d : Nat → Nat) (src len i : Nat)
    (h : i < (memcpyOut d src len).length) :
    (memcpyOut d src len)[i] = d (src + i) := by
  simp [memcpyOut]

lemma getD_take (l : List Nat) (c j : Nat) (h : j < c) :
    (l.take c).getD j 0 = l.getD j 0 := by
  rw [List.getD_eq_getElem?_getD, List.getD_eq_getElem?_getD, List.getElem?_take,
    if_pos h]

lemma getD_drop (l : List Nat) (c j : Nat) :
    (l.drop c).getD j 0 = l.getD (c + j) 0 := by
  rw [List.getD_eq_getElem?_getD, List.getD_eq_getElem?_getD, List.getElem?_drop]

lemma getD_append_lt (l m : List Nat) (j : Nat) (h : j < l.length) :
    (l ++ m).getD j 0 = l.getD j 0 := by
  rw [List.getD_eq_getElem?_getD, List.getD_eq_getElem?_getD, List.getElem?_append,
    if_pos h]

lemma getD_append_ge (l m : List Nat) (j : Nat) (h : l.length ≤ j) :
    (l ++ m).getD j 0 = m.getD (j - l.length) 0 := by
  rw [List.getD_eq_getElem?_getD, List.getD_eq_getElem?_getD,
    List.getElem?_append_right h]

lemma is_full_true_iff (buffersize : Nat) (p : cirbuf) :
    is_full buffersize p = true ↔
      (((p.ridx : Int) - p.widx = 1) ∨ (p.ridx = 0 ∧ p.widx = buffersize - 1)) := by
  simp [is_full]

lemma ringidx_lt (C r0 i : Nat) (hr : r0 < C) (hi : i < C) : ringidx C r0 i < C := by
  unfold ringidx
  split <;> omega

lemma cirbuf_read_eof (C cnt : Nat) (nb : Bool) (p : cirbuf)
    (h : (p.ridx : Int) = p.cidx) :
    cirbuf_read C cnt nb p = (ReadOut.ok [], p) := by
  unfold cirbuf_read
  rw [if_pos h]

lemma cirbuf_read_empty (C cnt : Nat) (nb : Bool) (p : cirbuf)
    (h1 : (p.ridx : Int) ≠ p.cidx) (h2 : p.ridx = p.widx) :
    cirbuf_read C cnt nb p = (if nb then ReadOut.wouldBlock else ReadOut.blocks, p) := by
  unfold cirbuf_read
  rw [if_neg h1, if_pos h2]

lemma cirbuf_write_blocked (C : Nat) (no : Int) (xs : List Nat) (nb : Bool) (p : cirbuf)
    (hg : no ≠ 2 ∨ is_full C p = true) :
    cirbuf_write C no xs nb p = (if nb then WriteOut.wouldBlock else WriteOut.blocks, p) := by
  unfold cirbuf_write
  rw [if_pos hg]

lemma cirbuf_write_open (C : Nat) (no : Int) (xs : List Nat) (nb : Bool) (p : cirbuf)
    (hg : ¬ (no ≠ 2 ∨ is_full C p = true)) :
    cirbuf_write C no xs nb p =
      (WriteOut.ok (min xs.length (freespace C p)),
       { p with
         buf := memcpyIn
             (memcpyIn p.buf p.widx
               (xs.take (min (min xs.length (freespace C p)) (C - p.widx)))) 0
             ((xs.drop (min (min xs.length (freespace C p)) (C - p.widx))).take
               (min xs.length (freespace C p) -
                 min (min xs.length (freespace C p)) (C - p.widx))),
         widx := if p.widx + min xs.length (freespace C p) > C - 1
                 then p.widx + min xs.length (freespace C p) - C
                 else p.widx + min xs.length (freespace C p),
         cidx := if xs.length = 0
                 then ((if p.widx + min xs.length (freespace C p) > C - 1
                        then p.widx + min xs.length (freespace C p) - C
                        else p.widx + min xs.length (freespace C p) : Nat) : Int)
                 else p.cidx }) := by
  unfold cirbuf_write freespace
  rw [if_neg hg]

lemma cirbuf_read_open (C cnt : Nat) (nb : Bool) (p : cirbuf)
    (h1 : (p.ridx : Int) ≠ p.cidx) (h2 : p.ridx ≠ p.widx) :
    cirbuf_read C cnt nb p =
      (ReadOut.ok (memcpyOut p.buf p.ridx (min (C - p.ridx) (min cnt (avail C p))) ++
        memcpyOut p.buf 0
          (min cnt (avail C p) - min (C - p.ridx) (min cnt (avail C p)))),
       { p with ridx := if p.ridx + min cnt (avail C p) > C - 1
                        then p.ridx + min cnt (avail C p) - C
                        else p.ridx + min cnt (avail C p) }) := by
  unfold cirbuf_read avail
  rw [if_neg h1, if_neg h2]

lemma freespace_ring (C r0 n : Nat) (d : Nat → Nat) (c : Int)
    (hC : 2 ≤ C) (hr : r0 < C) (hn : n ≤ C - 1) :
    freespace C ⟨d, ringidx C r0 n, r0, c⟩ = C - 1 - n := by
  unfold freespace ringidx
  dsimp only
  split_ifs <;> omega

lemma avail_ring (C r0 n : Nat) (d : Nat → Nat) (c : Int)
    (hC : 2 ≤ C) (hr : r0 < C) (hn : n ≤ C - 1) :
    avail C ⟨d, ringidx C r0 n, r0, c⟩ = n := by
  unfold avail ringidx
  dsimp only
  split_ifs <;> omega

lemma is_full_ring_iff (C r0 n : Nat) (d : Nat → Nat) (c : Int)
    (hC : 2 ≤ C) (hr : r0 < C) (hn : n ≤ C - 1) :
    is_full C ⟨d, ringidx C r0 n, r0, c⟩ = true ↔ n = C - 1 := by
  rw [is_full_true_iff]
  dsimp only
  unfold ringidx
  split_ifs <;> omega

lemma cirbuf_write_step (C r0 : Nat) (flat xs : List Nat) (nb : Bool) (d : Nat → Nat)
    (hC : 2 ≤ C) (hr : r0 < C)
    (hd : ∀ i, i < flat.length → d (ringidx C r0 i) = flat.getD i 0)
    (hxs : xs ≠ []) (hlen : flat.length + xs.length ≤ C - 1) :
    (cirbuf_write C 2 xs nb ⟨d, ringidx C r0 flat.length, r0, -1⟩).1 =
      WriteOut.ok xs.length ∧
    WixInv C r0 (flat ++ xs)
      (cirbuf_write C 2 xs nb ⟨d, ringidx C r0 flat.length, r0, -1⟩).2 := by
  have hm1 : 1 ≤ xs.length := List.length_pos.mpr hxs
  have hg : ¬ ((2 : Int) ≠ 2 ∨
      is_full C ⟨d, ringidx C r0 flat.length, r0, -1⟩ = true) := by
    rw [is_full_ring_iff C r0 flat.length d (-1) hC hr (by omega)]
    omega
  rw [cirbuf_write_open C 2 xs nb _ hg,
    freespace_ring C r0 flat.length d (-1) hC hr (by omega),
    min_eq_left (show xs.length ≤ C - 1 - flat.length by omega)]
  unfold WixInv
  dsimp only
  rw [List.length_append, if_neg (show ¬ xs.length = 0 by omega)]
  have hWlt : ringidx C r0 flat.length < C := ringidx_lt C r0 flat.length hr (by omega)
  set W := ringidx C r0 flat.length with hWdef
  set cp := min xs.length (C - W) with hcp
  refine ⟨rfl, rfl, ?_, rfl, ?_⟩
  · rw [hWdef]
    unfold ringidx
    split_ifs <;> omega
  · intro i hi
    rcases Nat.lt_or_ge (r0 + flat.length) C with hA | hB <;>
      [(have hWv : W = r0 + flat.length := by rw [hWdef]; unfold ringidx; rw [if_pos hA]);
       (have hWv : W = r0 + flat.length - C := by
          rw [hWdef]; unfold ringidx; rw [if_neg (by omega)])] <;>
    rcases Nat.lt_or_ge (r0 + i) C with hA2 | hB2 <;>
      [(have hq : ringidx C r0 i = r0 + i := by unfold ringidx; rw [if_pos hA2]);
       (have hq : ringidx C r0 i = r0 + i - C := by unfold ringidx; rw [if_neg (by omega)]);
       (have hq : ringidx C r0 i = r0 + i := by unfold ringidx; rw [if_pos hA2]);
       (have hq : ringidx C r0 i = r0 + i - C := by unfold ringidx; rw [if_neg (by omega)])] <;>
    rw [hq] <;>
    by_cases hfl : i < flat.length
    case pos =>
      rw [getD_append_lt _ _ _ hfl,
        memcpyIn_out _ _ _ _ (by simp [List.length_take, List.length_drop]; omega),
        memcpyIn_out _ _ _ _ (by simp [List.length_take]; omega)]
      have hv := hd i hfl
      rw [hq] at hv
      exact hv
    case neg =>
      by_cases hk : i - flat.length < cp
      · rw [getD_append_ge _ _ _ (by omega),
          memcpyIn_out _ _ _ _ (by simp [List.length_take, List.length_drop]; omega),
          memcpyIn_in _ _ _ _ (by omega) (by simp [List.length_take]; omega),
          show r0 + i - W = i - flat.length from by omega,
          getD_take _ _ _ hk]
      · exfalso
        omega
    case pos =>
      rw [getD_append_lt _ _ _ hfl,
        memcpyIn_out _ _ _ _ (by simp [List.length_take, List.length_drop]; omega),
        memcpyIn_out _ _ _ _ (by simp [List.length_take]; omega)]
      have hv := hd i hfl
      rw [hq] at hv
      exact hv
    case neg =>
      by_cases hk : i - flat.length < cp
      · exfalso
        omega
      · rw [getD_append_ge _ _ _ (by omega),
          memcpyIn_in _ _ _ _ (by omega) (by simp [List.length_take, List.length_drop]; omega),
          Nat.sub_zero,
          getD_take _ _ _ (by omega),
          getD_drop,
          show cp + (r0 + i - C) = i - flat.length from by omega]
    case pos =>
      rw [getD_append_lt _ _ _ hfl,
        memcpyIn_out _ _ _ _ (by simp [List.length_take, List.length_drop]; omega),
        memcpyIn_out _ _ _ _ (by simp [List.length_take]; omega)]
      have hv := hd i hfl
      rw [hq] at hv
      exact hv
    case neg =>
      by_cases hk : i - flat.length < cp
      · rw [getD_append_ge _ _ _ (by omega),
          memcpyIn_out _ _ _ _ (by simp [List.length_take, List.length_drop]; omega),
          memcpyIn_in _ _ _ _ (by omega) (by simp [List.length_take]; omega),
          show r0 + i - W = i - flat.length from by omega,
          getD_take _ _ _ hk]
      · exfalso
        omega
    case pos =>
      rw [getD_append_lt _ _ _ hfl,
        memcpyIn_out _ _ _ _ (by simp [List.length_take, List.length_drop]; omega),
        memcpyIn_out _ _ _ _ (by simp [List.length_take]; omega)]
      have hv := hd i hfl
      rw [hq] at hv
      exact hv
    case neg =>
      by_cases hk : i - flat.length < cp
      · rw [getD_append_ge _ _ _ (by omega),
          memcpyIn_out _ _ _ _ (by simp [List.length_take, List.length_drop]; omega),
          memcpyIn_in _ _ _ _ (by omega) (by simp [List.length_take]; omega),
          show r0 + i - C - W = i - flat.length from by omega,
          getD_take _ _ _ hk]
      · exfalso
        omega

lemma cirbuf_read_ring (C r0 cnt : Nat) (flat : List Nat) (nb : Bool)
    (d : Nat → Nat) (c : Int)
    (hC : 2 ≤ C) (hr : r0 < C)
    (hd : ∀ i, i < flat.length → d (ringidx C r0 i) = flat.getD i 0)
    (hcid : c ≠ (r0 : Int))
    (hn1 : 1 ≤ flat.length) (hnC : flat.length ≤ C - 1) :
    cirbuf_read C cnt nb ⟨d, ringidx C r0 flat.length, r0, c⟩ =
      (ReadOut.ok (flat.take (min cnt flat.length)),
       ⟨d, ringidx C r0 flat.length, ringidx C r0 (min cnt flat.length), c⟩) := by
  have h1 : ((⟨d, ringidx C r0 flat.length, r0, c⟩ : cirbuf).ridx : Int) ≠
      (⟨d, ringidx C r0 flat.length, r0, c⟩ : cirbuf).cidx := by
    dsimp only
    omega
  have h2 : (⟨d, ringidx C r0 flat.length, r0, c⟩ : cirbuf).ridx ≠
      (⟨d, ringidx C r0 flat.length, r0, c⟩ : cirbuf).widx := by
    dsimp only
    unfold ringidx
    split <;> omega
  rw [cirbuf_read_open C cnt nb _ h1 h2]
  dsimp only
  rw [avail_ring C r0 flat.length d c hC hr (by omega)]
  have h3 : (if r0 + min cnt flat.length > C - 1 then r0 + min cnt flat.length - C
      else r0 + min cnt flat.length) = ringidx C r0 (min cnt flat.length) := by
    unfold ringidx
    split_ifs <;> omega
  rw [h3]
  refine congrArg (fun l => (ReadOut.ok l, _)) ?_
  refine List.ext_getElem ?_ ?_
  · simp only [List.length_append, length_memcpyOut, List.length_take]
    omega
  · intro i hi1 hi2
    have hiT : i < min cnt flat.length := by
      simp only [List.length_append, length_memcpyOut] at hi1
      omega
    rw [List.getElem_take]
    rcases Nat.lt_or_ge i (min (C - r0) (min cnt flat.length)) with h | h
    · rw [List.getElem_append_left (by rw [length_memcpyOut]; omega),
        getElem_memcpyOut]
      have hq : ringidx C r0 i = r0 + i := by
        unfold ringidx
        rw [if_pos (by omega)]
      have hv := hd i (by omega)
      rw [hq] at hv
      rw [hv, List.getD_eq_getElem flat 0 (by omega)]
    · rw [List.getElem_append_right (by rw [length_memcpyOut]; omega)]
      rw [getElem_memcpyOut]
      have hq : ringidx C r0 i = r0 + i - C := by
        unfold ringidx
        rw [if_neg (by omega)]
      have hv := hd i (by omega)
      rw [hq] at hv
      rw [show 0 + (i - (memcpyOut d r0 (min (C - r0) (min cnt flat.length))).length) =
          r0 + i - C from by rw [length_memcpyOut]; omega]
      rw [hv, List.getD_eq_getElem flat 0 (by omega)]

lemma cirbuf_foldl_inv (C r0 : Nat) (nb : Bool) (ws : List (List Nat)) :
    ∀ (flat : List Nat) (p : cirbuf), 2 ≤ C → r0 < C →
      WixInv C r0 flat p → (∀ xs ∈ ws, xs ≠ []) →
      flat.length + ws.flatten.length ≤ C - 1 →
      WixInv C r0 (flat ++ ws.flatten)
        (ws.foldl (fun q xs => (cirbuf_write C 2 xs nb q).2) p) := by
  induction ws with
  | nil =>
      intro flat p hC hr hinv hpos hlen
      simpa using hinv
  | cons xs ws ih =>
      intro flat p hC hr hinv hpos hlen
      obtain ⟨h1, h2, h3, h4⟩ := hinv
      have hflen : (xs :: ws).flatten.length = xs.length + ws.flatten.length := by
        simp
      have hp : p = ⟨p.buf, ringidx C r0 flat.length, r0, -1⟩ := by
        cases p
        simp_all
      have hstep := cirbuf_write_step C r0 flat xs nb p.buf hC hr
        (by rw [hp] at h4; exact h4)
        (hpos xs (by simp)) (by omega)
      rw [List.foldl_cons, hp]
      have hrec := ih (flat ++ xs) _ hC hr hstep.2
        (fun a ha => hpos a (List.mem_cons_of_mem _ ha))
        (by rw [List.length_append]; omega)
      rw [List.append_assoc] at hrec
      simpa using hrec

lemma proxy_write_east (C : Nat) (e : Nat) (xs : List Nat) (nb : Bool) (dev : px)
    (he : dev.east = some e) :
    proxy_write C e xs nb dev =
      ((cirbuf_write C dev.nopen xs nb dev.ewbuf).1,
       { dev with ewbuf := (cirbuf_write C dev.nopen xs nb dev.ewbuf).2 }) := by
  unfold proxy_write
  rw [if_pos he]

lemma proxy_read_west (C : Nat) (w cnt : Nat) (nb : Bool) (dev : px)
    (hne : dev.east ≠ some w) (hw : dev.west = some w) :
    proxy_read C w cnt nb dev =
      ((cirbuf_read C cnt nb dev.ewbuf).1,
       { dev with ewbuf := (cirbuf_read C cnt nb dev.ewbuf).2 }) := by
  unfold proxy_read
  rw [if_neg hne, if_pos hw]

lemma proxy_foldl_east (C : Nat) (e : Nat) (nb : Bool) (ws : List (List Nat)) :
    ∀ (dev : px), dev.east = some e → dev.nopen = 2 →
      ws.foldl (fun d xs => (proxy_write C e xs nb d).2) dev =
        { dev with
          ewbuf := ws.foldl (fun q xs => (cirbuf_write C 2 xs nb q).2) dev.ewbuf } := by
  induction ws with
  | nil =>
      intro dev he hn
      rfl
  | cons xs ws ih =>
      intro dev he hn
      rw [List.foldl_cons, List.foldl_cons]
      have h1 : (proxy_write C e xs nb dev).2 =
          { dev with ewbuf := (cirbuf_write C 2 xs nb dev.ewbuf).2 } := by
        rw [proxy_write_east C e xs nb dev he]
        dsimp only
        rw [hn]
      rw [h1]
      exact ih _ (by simpa using he) (by simpa using hn)

/-- C1, counterexample to the claim as stated: starting from an empty
open buffer on a device with both sides connected, the write sequence
`[[], [97]]` has total length 1, which is at most the usable capacity
`C - 1 = 3`, and every write succeeds; yet a subsequent read requesting
1 byte returns 0 bytes instead of `[97]`, because the zero-length write
is a soft-EOF signal that sets the close index at the read position. -/
theorem C1_counterexample :
    (proxy_write 4 1 [] true
        ⟨⟨fun _ => 0, 0, 0, -1⟩, ⟨fun _ => 0, 0, 0, -1⟩, 2, some 1, some 2, 2, 2⟩).1 =
      WriteOut.ok 0 ∧
    (proxy_write 4 1 [97] true
        (proxy_write 4 1 [] true
          ⟨⟨fun _ => 0, 0, 0, -1⟩, ⟨fun _ => 0, 0, 0, -1⟩, 2, some 1, some 2, 2, 2⟩).2).1 =
      WriteOut.ok 1 ∧
    (proxy_read 4 2 1 true
        (proxy_write 4 1 [97] true
          (proxy_write 4 1 [] true
            ⟨⟨fun _ => 0, 0, 0, -1⟩, ⟨fun _ => 0, 0, 0, -1⟩, 2, some 1, some 2, 2, 2⟩).2).2).1 =
      ReadOut.ok [] ∧
    ReadOut.ok ([] : List Nat) ≠ ReadOut.ok [97] := by
  decide

/-- C1 (amended): for every nonempty sequence of positive-length writes
by the east endpoint, of total length at most the usable capacity
`C - 1`, starting from an empty east-to-west buffer with no close
marker set, a west read requesting at least the total length returns
exactly the written bytes in write order, byte for byte, including runs
that wrap around index `C - 1`. -/
theorem C1_fifo_order (C e w cnt : Nat) (ws : List (List Nat)) (nb nb2 : Bool)
    (dev : px)
    (hC : 2 ≤ C)
    (he : dev.east = some e) (hw : dev.west = some w) (hew : e ≠ w)
    (hn : dev.nopen = 2)
    (hr : dev.ewbuf.ridx < C)
    (hempty : dev.ewbuf.widx = dev.ewbuf.ridx)
    (hcid : dev.ewbuf.cidx = -1)
    (hpos : ∀ xs ∈ ws, xs ≠ []) (hne : ws ≠ [])
    (hlen : ws.flatten.length ≤ C - 1) (hcnt : ws.flatten.length ≤ cnt) :
    (proxy_read C w cnt nb2 (proxy_writeAll C e ws nb dev)).1 =
      ReadOut.ok ws.flatten := by
  have hflat1 : 1 ≤ ws.flatten.length := by
    rcases ws with _ | ⟨y, t⟩
    · exact absurd rfl hne
    · have hy : 1 ≤ y.length := List.length_pos.mpr (hpos y (by simp))
      simp only [List.flatten_cons, List.length_append]
      omega
  have hinv0 : WixInv C dev.ewbuf.ridx [] dev.ewbuf := by
    have hz : ringidx C dev.ewbuf.ridx 0 = dev.ewbuf.ridx := by
      unfold ringidx
      rw [if_pos (by omega)]
      omega
    exact ⟨rfl, by rw [List.length_nil, hz]; exact hempty, hcid,
      by intro i hi; simp at hi⟩
  have hfold := cirbuf_foldl_inv C dev.ewbuf.ridx nb ws [] dev.ewbuf hC hr hinv0
    hpos (by simpa using hlen)
  rw [List.nil_append] at hfold
  unfold proxy_writeAll
  rw [proxy_foldl_east C e nb ws dev he hn]
  set Q := ws.foldl (fun q xs => (cirbuf_write C 2 xs nb q).2) dev.ewbuf with hQ
  obtain ⟨g1, g2, g3, g4⟩ := hfold
  have hQp : Q = ⟨Q.buf, ringidx C dev.ewbuf.ridx ws.flatten.length,
      dev.ewbuf.ridx, -1⟩ := by
    rw [← g2, ← g3, ← g1]
  rw [proxy_read_west C w cnt nb2 _
    (by simp only [he]; simpa using hew) (by simpa using hw)]
  dsimp only
  rw [hQp, cirbuf_read_ring C dev.ewbuf.ridx cnt ws.flatten nb2 Q.buf (-1) hC hr
    (by rw [hQp] at g4; exact g4) (by omega) hflat1 (by omega)]
  dsimp only
  rw [min_eq_right hcnt, List.take_length]

/-- C1 witness: the amended theorem applied at `C = 4` with the ring
starting at position 3, so the three written bytes wrap around index 3. -/
theorem C1_fifo_order_witness :
    (proxy_read 4 2 5 true (proxy_writeAll 4 1 [[9], [8, 7]] true
        ⟨⟨fun _ => 0, 3, 3, -1⟩, ⟨fun _ => 0, 0, 0, -1⟩, 2, some 1, some 2, 2, 2⟩)).1 =
      ReadOut.ok [9, 8, 7] :=
  C1_fifo_order 4 1 2 5 [[9], [8, 7]] true true
    ⟨⟨fun _ => 0, 3, 3, -1⟩, ⟨fun _ => 0, 0, 0, -1⟩, 2, some 1, some 2, 2, 2⟩
    (by decide) rfl rfl (by decide) rfl (by decide) rfl rfl
    (by decide) (by decide) (by decide) (by decide)

lemma emod_shift (a b : Int) (h1 : -b ≤ a) (h2 : a < b) :
    a % b = if a < 0 then a + b else a := by
  split_ifs with h
  · have e2 : (a + b * 1) % b = a % b := Int.add_mul_emod_self_left a b 1
    rw [mul_one] at e2
    rw [← e2]
    exact Int.emod_eq_of_lt (by omega) (by omega)
  · exact Int.emod_eq_of_lt (by omega) h2

/-- C2: for cursors in `[0, C)` the buffer is full exactly when
`(read_cursor - write_cursor) mod C = 1` (which is what `is_full`
computes), it is empty (no byte available) exactly when the cursors are
equal, the usable capacity of an empty buffer is `C - 1` bytes, and
behaviourally: writing `C - 1` bytes into an empty open buffer succeeds
in full and fills it, a further write of positive length reports
`WouldBlock` when non-blocking and blocks otherwise, and after one byte
is drained one more byte can immediately be written. -/
theorem C2_capacity_full_empty (C : Nat) (p : cirbuf)
    (hC : 2 ≤ C) (hr : p.ridx < C) (hw : p.widx < C) :
    (is_full C p = true ↔ ((p.ridx : Int) - p.widx) % C = 1) ∧
    (avail C p = 0 ↔ p.ridx = p.widx) ∧
    (p.ridx = p.widx → freespace C p = C - 1) ∧
    (∀ (xs ys : List Nat) (v : Nat) (nb nb2 nb3 : Bool),
      p.widx = p.ridx → p.cidx = -1 → xs.length = C - 1 → ys ≠ [] →
      (cirbuf_write C 2 xs nb p).1 = WriteOut.ok (C - 1) ∧
      is_full C (cirbuf_write C 2 xs nb p).2 = true ∧
      (cirbuf_write C 2 ys true (cirbuf_write C 2 xs nb p).2).1 =
        WriteOut.wouldBlock ∧
      (cirbuf_write C 2 ys false (cirbuf_write C 2 xs nb p).2).1 =
        WriteOut.blocks ∧
      (cirbuf_write C 2 [v] nb3
        (cirbuf_read C 1 nb2 (cirbuf_write C 2 xs nb p).2).2).1 =
        WriteOut.ok 1) := by
  refine ⟨?_, ?_, ?_, ?_⟩
  · rw [is_full_true_iff, emod_shift ((p.ridx : Int) - p.widx) C (by omega) (by omega)]
    split_ifs <;> omega
  · unfold avail
    split_ifs <;> omega
  · intro h
    unfold freespace
    split_ifs <;> omega
  · intro xs ys v nb nb2 nb3 hempty hcid hxs hys
    have hz : ringidx C p.ridx 0 = p.ridx := by
      unfold ringidx
      rw [if_pos (by omega)]
      omega
    have hp : p = ⟨p.buf, ringidx C p.ridx 0, p.ridx, -1⟩ := by
      rw [hz, ← hcid]
      nth_rewrite 1 [← hempty]
      rfl
    have hstep := cirbuf_write_step C p.ridx [] xs nb p.buf hC hr
      (by intro i hi; simp at hi) (by intro hh; rw [hh] at hxs; simp at hxs; omega)
      (by simpa using by omega)
    rw [List.nil_append] at hstep
    simp only [List.length_nil] at hstep
    obtain ⟨hret, g1, g2, g3, g4⟩ := hstep
    set b1 := (cirbuf_write C 2 xs nb ⟨p.buf, ringidx C p.ridx 0, p.ridx, -1⟩).2
      with hb1
    have hb1p : b1 = ⟨b1.buf, ringidx C p.ridx xs.length, p.ridx, -1⟩ := by
      rw [← g2, ← g3, ← g1]
    have hfull1 : is_full C b1 = true := by
      rw [hb1p, is_full_ring_iff C p.ridx xs.length b1.buf (-1) hC hr (by omega)]
      omega
    have hg1 : (2 : Int) ≠ 2 ∨ is_full C b1 = true := Or.inr hfull1
    have hread := cirbuf_read_ring C p.ridx 1 xs nb2 b1.buf (-1) hC hr
      (by rw [hb1p] at g4; exact g4) (by omega) (by omega) (by omega)
    refine ⟨?_, ?_, ?_, ?_, ?_⟩
    · rw [hp, hret, hxs]
    · rw [hp]
      exact hfull1
    · rw [hp, cirbuf_write_blocked C 2 ys true b1 hg1]
      simp
    · rw [hp, cirbuf_write_blocked C 2 ys false b1 hg1]
      simp
    · rw [hp, ← hb1, hb1p, hread]
      dsimp only
      have hg2 : ¬ ((2 : Int) ≠ 2 ∨
          is_full C (⟨b1.buf, ringidx C p.ridx xs.length,
            ringidx C p.ridx (min 1 xs.length), -1⟩ : cirbuf) = true) := by
        rw [is_full_true_iff]
        dsimp only
        unfold ringidx
        split_ifs <;> omega
      rw [cirbuf_write_open C 2 [v] nb3 _ hg2]
      dsimp only
      have hfs : freespace C (⟨b1.buf, ringidx C p.ridx xs.length,
          ringidx C p.ridx (min 1 xs.length), -1⟩ : cirbuf) = 1 := by
        unfold freespace
        dsimp only
        unfold ringidx
        split_ifs <;> omega
      rw [hfs]
      simp

/-- C2 witness: the theorem applied at `C = 4` to the empty buffer with
both cursors at 0 and no close marker. -/
theorem C2_capacity_full_empty_witness :
    (is_full 4 ⟨fun _ => 0, 0, 0, -1⟩ = true ↔
      (((⟨fun _ => 0, 0, 0, -1⟩ : cirbuf).ridx : Int) -
        (⟨fun _ => 0, 0, 0, -1⟩ : cirbuf).widx) % 4 = 1) ∧
    (avail 4 ⟨fun _ => 0, 0, 0, -1⟩ = 0 ↔
      (⟨fun _ => 0, 0, 0, -1⟩ : cirbuf).ridx = (⟨fun _ => 0, 0, 0, -1⟩ : cirbuf).widx) ∧
    ((⟨fun _ => 0, 0, 0, -1⟩ : cirbuf).ridx = (⟨fun _ => 0, 0, 0, -1⟩ : cirbuf).widx →
      freespace 4 ⟨fun _ => 0, 0, 0, -1⟩ = 4 - 1) ∧
    (∀ (xs ys : List Nat) (v : Nat) (nb nb2 nb3 : Bool),
      (⟨fun _ => 0, 0, 0, -1⟩ : cirbuf).widx = (⟨fun _ => 0, 0, 0, -1⟩ : cirbuf).ridx →
      (⟨fun _ => 0, 0, 0, -1⟩ : cirbuf).cidx = -1 → xs.length = 4 - 1 → ys ≠ [] →
      (cirbuf_write 4 2 xs nb ⟨fun _ => 0, 0, 0, -1⟩).1 = WriteOut.ok (4 - 1) ∧
      is_full 4 (cirbuf_write 4 2 xs nb ⟨fun _ => 0, 0, 0, -1⟩).2 = true ∧
      (cirbuf_write 4 2 ys true (cirbuf_write 4 2 xs nb ⟨fun _ => 0, 0, 0, -1⟩).2).1 =
        WriteOut.wouldBlock ∧
      (cirbuf_write 4 2 ys false (cirbuf_write 4 2 xs nb ⟨fun _ => 0, 0, 0, -1⟩).2).1 =
        WriteOut.blocks ∧
      (cirbuf_write 4 2 [v] nb3
        (cirbuf_read 4 1 nb2 (cirbuf_write 4 2 xs nb ⟨fun _ => 0, 0, 0, -1⟩).2).2).1 =
        WriteOut.ok 1) :=
  C2_capacity_full_empty 4 ⟨fun _ => 0, 0, 0, -1⟩ (by decide) (by decide) (by decide)

lemma proxy_release_east (dev : px) (e : Nat) (he : dev.east = some e) :
    proxy_release e dev =
      { dev with
        nopen := dev.nopen - 1,
        east := none,
        ewbuf := { dev.ewbuf with cidx := (dev.ewbuf.widx : Int) } } := by
  unfold proxy_release
  rw [if_pos (by simpa using he)]

/-- C3: a read on a buffer whose read cursor sits at the set close
marker returns 0 bytes immediately, leaving the buffer untouched, so
the EOF outcome is permanent; concretely, after the east side writes a
nonempty sequence of byte runs and disconnects, the west side still
reads every previously written byte, and only once drained to the
marker does the next read return 0 bytes. -/
theorem C3_eof_after_disconnect (C e w cnt cnt2 : Nat) (ws : List (List Nat))
    (nb nb2 nb3 : Bool) (dev : px)
    (hC : 2 ≤ C)
    (he : dev.east = some e) (hw : dev.west = some w) (hew : e ≠ w)
    (hn : dev.nopen = 2)
    (hr : dev.ewbuf.ridx < C)
    (hempty : dev.ewbuf.widx = dev.ewbuf.ridx)
    (hcid : dev.ewbuf.cidx = -1)
    (hpos : ∀ xs ∈ ws, xs ≠ []) (hne : ws ≠ [])
    (hlen : ws.flatten.length ≤ C - 1) (hcnt : ws.flatten.length ≤ cnt) :
    (∀ (q : cirbuf) (k : Nat) (nb4 : Bool), (q.ridx : Int) = q.cidx →
      cirbuf_read C k nb4 q = (ReadOut.ok [], q)) ∧
    (proxy_read C w cnt nb2 (proxy_release e (proxy_writeAll C e ws nb dev))).1 =
      ReadOut.ok ws.flatten ∧
    (proxy_read C w cnt2 nb3
      (proxy_read C w cnt nb2 (proxy_release e (proxy_writeAll C e ws nb dev))).2).1 =
      ReadOut.ok [] := by
  have hflat1 : 1 ≤ ws.flatten.length := by
    rcases ws with _ | ⟨y, t⟩
    · exact absurd rfl hne
    · have hy : 1 ≤ y.length := List.length_pos.mpr (hpos y (by simp))
      simp only [List.flatten_cons, List.length_append]
      omega
  have hinv0 : WixInv C dev.ewbuf.ridx [] dev.ewbuf := by
    have hz : ringidx C dev.ewbuf.ridx 0 = dev.ewbuf.ridx := by
      unfold ringidx
      rw [if_pos (by omega)]
      omega
    exact ⟨rfl, by rw [List.length_nil, hz]; exact hempty, hcid,
      by intro i hi; simp at hi⟩
  have hfold := cirbuf_foldl_inv C dev.ewbuf.ridx nb ws [] dev.ewbuf hC hr hinv0
    hpos (by simpa using hlen)
  rw [List.nil_append] at hfold
  unfold proxy_writeAll
  rw [proxy_foldl_east C e nb ws dev he hn]
  set Q := ws.foldl (fun q xs => (cirbuf_write C 2 xs nb q).2) dev.ewbuf with hQ
  obtain ⟨g1, g2, g3, g4⟩ := hfold
  have hWneq : ringidx C dev.ewbuf.ridx ws.flatten.length ≠ dev.ewbuf.ridx := by
    unfold ringidx
    split <;> omega
  have hQr : ({ Q with cidx := (Q.widx : Int) } : cirbuf) =
      ⟨Q.buf, ringidx C dev.ewbuf.ridx ws.flatten.length, dev.ewbuf.ridx,
        (ringidx C dev.ewbuf.ridx ws.flatten.length : Int)⟩ := by
    rw [← g2, ← g1]
  have hread2 := cirbuf_read_ring C dev.ewbuf.ridx cnt ws.flatten nb2 Q.buf
    (ringidx C dev.ewbuf.ridx ws.flatten.length : Int) hC hr
    g4 (by omega) hflat1 (by omega)
  refine ⟨fun q k nb4 hq => cirbuf_read_eof C k nb4 q hq, ?_, ?_⟩
  · rw [proxy_release_east _ e (by simpa using he)]
    dsimp only
    rw [proxy_read_west C w cnt nb2 _ (by simp) (by simpa using hw)]
    dsimp only
    rw [hQr, hread2]
    dsimp only
    rw [min_eq_right hcnt, List.take_length]
  · rw [proxy_release_east _ e (by simpa using he)]
    dsimp only
    rw [proxy_read_west C w cnt nb2 _ (by simp) (by simpa using hw)]
    dsimp only
    rw [hQr, hread2]
    dsimp only
    rw [min_eq_right hcnt]
    rw [proxy_read_west C w cnt2 nb3 _ (by simp) (by simpa using hw)]
    dsimp only
    rw [cirbuf_read_eof C cnt2 nb3 _ rfl]

/-- C3 witness: the theorem applied at `C = 4` with east writing three
bytes across the wrap point and then disconnecting. -/
theorem C3_eof_after_disconnect_witness :
    (∀ (q : cirbuf) (k : Nat) (nb4 : Bool), (q.ridx : Int) = q.cidx →
      cirbuf_read 4 k nb4 q = (ReadOut.ok [], q)) ∧
    (proxy_read 4 2 5 true (proxy_release 1 (proxy_writeAll 4 1 [[9], [8, 7]] true
      ⟨⟨fun _ => 0, 3, 3, -1⟩, ⟨fun _ => 0, 0, 0, -1⟩, 2, some 1, some 2, 2, 2⟩))).1 =
      ReadOut.ok [9, 8, 7] ∧
    (proxy_read 4 2 7 false
      (proxy_read 4 2 5 true (proxy_release 1 (proxy_writeAll 4 1 [[9], [8, 7]] true
        ⟨⟨fun _ => 0, 3, 3, -1⟩, ⟨fun _ => 0, 0, 0, -1⟩, 2, some 1, some 2, 2, 2⟩))).2).1 =
      ReadOut.ok [] :=
  C3_eof_after_disconnect 4 1 2 5 7 [[9], [8, 7]] true true false
    ⟨⟨fun _ => 0, 3, 3, -1⟩, ⟨fun _ => 0, 0, 0, -1⟩, 2, some 1, some 2, 2, 2⟩
    (by decide) rfl rfl (by decide) rfl (by decide) rfl rfl (by decide) (by decide)
    (by decide) (by decide)

/-- C4: a write of requested length at least 1, issued with the peer
connected (`nopen = 2`) and the buffer not full, transfers exactly
`min(n, (read_cursor - write_cursor - 1) mod C)` bytes, returns that
count as a success (so a short write is a valid outcome, not an error),
and advances the write cursor by exactly that amount modulo `C`. -/
theorem C4_write_short (C : Nat) (p : cirbuf) (xs : List Nat) (nb : Bool)
    (hC : 2 ≤ C) (hr : p.ridx < C) (hw : p.widx < C)
    (hxs : 1 ≤ xs.length) (hnf : is_full C p = false) :
    (cirbuf_write C 2 xs nb p).1 =
      WriteOut.ok (min xs.length ((((p.ridx : Int) - p.widx - 1) % C).toNat)) ∧
    (cirbuf_write C 2 xs nb p).2.widx =
      (p.widx + min xs.length ((((p.ridx : Int) - p.widx - 1) % C).toNat)) % C := by
  have hfe : freespace C p = (((p.ridx : Int) - p.widx - 1) % C).toNat := by
    unfold freespace
    rw [emod_shift ((p.ridx : Int) - p.widx - 1) C (by omega) (by omega)]
    split_ifs <;> omega
  have hg : ¬ ((2 : Int) ≠ 2 ∨ is_full C p = true) := by
    rw [hnf]
    simp
  have hfree_le : freespace C p ≤ C - 1 := by
    unfold freespace
    split_ifs <;> omega
  rw [cirbuf_write_open C 2 xs nb p hg]
  dsimp only
  rw [← hfe]
  refine ⟨rfl, ?_⟩
  rcases Nat.lt_or_ge (p.widx + min xs.length (freespace C p)) C with h | h
  · rw [if_neg (by omega), Nat.mod_eq_of_lt (by omega)]
  · rw [if_pos (by omega), Nat.mod_eq_sub_mod (by omega),
      Nat.mod_eq_of_lt (by omega)]

/-- C4 witness: the theorem applied at `C = 4` to the empty buffer and
a 5-byte payload, which yields a short write of 3 bytes. -/
theorem C4_write_short_witness :
    (cirbuf_write 4 2 [5, 6, 7, 8, 9] true ⟨fun _ => 0, 0, 0, -1⟩).1 =
      WriteOut.ok (min [5, 6, 7, 8, 9].length
        ((((⟨fun _ => 0, 0, 0, -1⟩ : cirbuf).ridx : Int) -
          (⟨fun _ => 0, 0, 0, -1⟩ : cirbuf).widx - 1) % 4).toNat) ∧
    (cirbuf_write 4 2 [5, 6, 7, 8, 9] true ⟨fun _ => 0, 0, 0, -1⟩).2.widx =
      ((⟨fun _ => 0, 0, 0, -1⟩ : cirbuf).widx + min [5, 6, 7, 8, 9].length
        ((((⟨fun _ => 0, 0, 0, -1⟩ : cirbuf).ridx : Int) -
          (⟨fun _ => 0, 0, 0, -1⟩ : cirbuf).widx - 1) % 4).toNat) % 4 :=
  C4_write_short 4 ⟨fun _ => 0, 0, 0, -1⟩ [5, 6, 7, 8, 9] true
    (by decide) (by decide) (by decide) (by decide) (by decide)

/-- C5: for a connected endpoint, `proxy_poll` reports writable exactly
when the outbound buffer is not full, the peer side is connected, the
outbound close marker does not equal the current write cursor, the
caller's access mode is not read-only and the peer's recorded access
mode is not write-only; and it reports readable exactly when the
inbound buffer has data available (nonzero available bytes, or the read
cursor sits at the close marker, the observable-EOF case) and the
caller's access mode is not write-only and the peer's recorded access
mode is not read-only.  The west case is stated first, matching the
dispatch order in the code. -/
theorem C5_poll_readiness (C fid f_flags : Nat) (dev : px)
    (h1 : dev.ewbuf.ridx < C) (h2 : dev.ewbuf.widx < C)
    (h3 : dev.webuf.ridx < C) (h4 : dev.webuf.widx < C) :
    (dev.west = some fid →
      (((proxy_poll C fid f_flags dev).writable = true) ↔
        (is_full C dev.webuf = false ∧ dev.nopen = 2 ∧
         dev.webuf.cidx ≠ (dev.webuf.widx : Int) ∧
         (f_flags &&& O_ACCMODE) ≠ O_RDONLY ∧
         (dev.eastaccmode &&& O_ACCMODE) ≠ O_WRONLY)) ∧
      (((proxy_poll C fid f_flags dev).readable = true) ↔
        ((avail C dev.ewbuf ≠ 0 ∨ (dev.ewbuf.ridx : Int) = dev.ewbuf.cidx) ∧
         (f_flags &&& O_ACCMODE) ≠ O_WRONLY ∧
         (dev.eastaccmode &&& O_ACCMODE) ≠ O_RDONLY))) ∧
    (dev.west ≠ some fid → dev.east = some fid →
      (((proxy_poll C fid f_flags dev).writable = true) ↔
        (is_full C dev.ewbuf = false ∧ dev.nopen = 2 ∧
         dev.ewbuf.cidx ≠ (dev.ewbuf.widx : Int) ∧
         (f_flags &&& O_ACCMODE) ≠ O_RDONLY ∧
         (dev.westaccmode &&& O_ACCMODE) ≠ O_WRONLY)) ∧
      (((proxy_poll C fid f_flags dev).readable = true) ↔
        ((avail C dev.webuf ≠ 0 ∨ (dev.webuf.ridx : Int) = dev.webuf.cidx) ∧
         (f_flags &&& O_ACCMODE) ≠ O_WRONLY ∧
         (dev.westaccmode &&& O_ACCMODE) ≠ O_RDONLY))) := by
  have havew : avail C dev.ewbuf ≠ 0 ↔ dev.ewbuf.widx ≠ dev.ewbuf.ridx := by
    unfold avail
    split_ifs <;> omega
  have havww : avail C dev.webuf ≠ 0 ↔ dev.webuf.widx ≠ dev.webuf.ridx := by
    unfold avail
    split_ifs <;> omega
  constructor
  · intro hwest
    unfold proxy_poll
    rw [if_pos hwest]
    dsimp only
    constructor
    · simp only [decide_eq_true_eq]
      have hb : is_full C dev.webuf = false ↔ ¬ (is_full C dev.webuf = true) := by
        simp
      rw [hb]
      tauto
    · simp only [decide_eq_true_eq]
      rw [havew]
      tauto
  · intro hnw he
    unfold proxy_poll
    rw [if_neg hnw, if_pos he]
    dsimp only
    constructor
    · simp only [decide_eq_true_eq]
      have hb : is_full C dev.ewbuf = false ↔ ¬ (is_full C dev.ewbuf = true) := by
        simp
      rw [hb]
      tauto
    · simp only [decide_eq_true_eq]
      rw [havww]
      tauto

/-- C5 witness: the theorem applied at `C = 4` to a device with west
connected as identity 2, one byte pending east-to-west, and both sides
opened read-write. -/
theorem C5_poll_readiness_witness :
    ((⟨⟨fun _ => 0, 1, 0, -1⟩, ⟨fun _ => 0, 0, 0, -1⟩, 2, some 1, some 2, 2, 2⟩ : px).west = some 2 →
      (((proxy_poll 4 2 2 ⟨⟨fun _ => 0, 1, 0, -1⟩, ⟨fun _ => 0, 0, 0, -1⟩, 2, some 1, some 2, 2, 2⟩).writable = true) ↔
        (is_full 4 (⟨⟨fun _ => 0, 1, 0, -1⟩, ⟨fun _ => 0, 0, 0, -1⟩, 2, some 1, some 2, 2, 2⟩ : px).webuf = false ∧ (⟨⟨fun _ => 0, 1, 0, -1⟩, ⟨fun _ => 0, 0, 0, -1⟩, 2, some 1, some 2, 2, 2⟩ : px).nopen = 2 ∧
         (⟨⟨fun _ => 0, 1, 0, -1⟩, ⟨fun _ => 0, 0, 0, -1⟩, 2, some 1, some 2, 2, 2⟩ : px).webuf.cidx ≠ ((⟨⟨fun _ => 0, 1, 0, -1⟩, ⟨fun _ => 0, 0, 0, -1⟩, 2, some 1, some 2, 2, 2⟩ : px).webuf.widx : Int) ∧
         (2 &&& O_ACCMODE) ≠ O_RDONLY ∧
         ((⟨⟨fun _ => 0, 1, 0, -1⟩, ⟨fun _ => 0, 0, 0, -1⟩, 2, some 1, some 2, 2, 2⟩ : px).eastaccmode &&& O_ACCMODE) ≠ O_WRONLY)) ∧
      (((proxy_poll 4 2 2 ⟨⟨fun _ => 0, 1, 0, -1⟩, ⟨fun _ => 0, 0, 0, -1⟩, 2, some 1, some 2, 2, 2⟩).readable = true) ↔
        ((avail 4 (⟨⟨fun _ => 0, 1, 0, -1⟩, ⟨fun _ => 0, 0, 0, -1⟩, 2, some 1, some 2, 2, 2⟩ : px).ewbuf ≠ 0 ∨
          ((⟨⟨fun _ => 0, 1, 0, -1⟩, ⟨fun _ => 0, 0, 0, -1⟩, 2, some 1, some 2, 2, 2⟩ : px).ewbuf.ridx : Int) = (⟨⟨fun _ => 0, 1, 0, -1⟩, ⟨fun _ => 0, 0, 0, -1⟩, 2, some 1, some 2, 2, 2⟩ : px).ewbuf.cidx) ∧
         (2 &&& O_ACCMODE) ≠ O_WRONLY ∧
         ((⟨⟨fun _ => 0, 1, 0, -1⟩, ⟨fun _ => 0, 0, 0, -1⟩, 2, some 1, some 2, 2, 2⟩ : px).eastaccmode &&& O_ACCMODE) ≠ O_RDONLY))) ∧
    ((⟨⟨fun _ => 0, 1, 0, -1⟩, ⟨fun _ => 0, 0, 0, -1⟩, 2, some 1, some 2, 2, 2⟩ : px).west ≠ some 2 → (⟨⟨fun _ => 0, 1, 0, -1⟩, ⟨fun _ => 0, 0, 0, -1⟩, 2, some 1, some 2, 2, 2⟩ : px).east = some 2 →
      (((proxy_poll 4 2 2 ⟨⟨fun _ => 0, 1, 0, -1⟩, ⟨fun _ => 0, 0, 0, -1⟩, 2, some 1, some 2, 2, 2⟩).writable = true) ↔
        (is_full 4 (⟨⟨fun _ => 0, 1, 0, -1⟩, ⟨fun _ => 0, 0, 0, -1⟩, 2, some 1, some 2, 2, 2⟩ : px).ewbuf = false ∧ (⟨⟨fun _ => 0, 1, 0, -1⟩, ⟨fun _ => 0, 0, 0, -1⟩, 2, some 1, some 2, 2, 2⟩ : px).nopen = 2 ∧
         (⟨⟨fun _ => 0, 1, 0, -1⟩, ⟨fun _ => 0, 0, 0, -1⟩, 2, some 1, some 2, 2, 2⟩ : px).ewbuf.cidx ≠ ((⟨⟨fun _ => 0, 1, 0, -1⟩, ⟨fun _ => 0, 0, 0, -1⟩, 2, some 1, some 2, 2, 2⟩ : px).ewbuf.widx : Int) ∧
         (2 &&& O_ACCMODE) ≠ O_RDONLY ∧
         ((⟨⟨fun _ => 0, 1, 0, -1⟩, ⟨fun _ => 0, 0, 0, -1⟩, 2, some 1, some 2, 2, 2⟩ : px).westaccmode &&& O_ACCMODE) ≠ O_WRONLY)) ∧
      (((proxy_poll 4 2 2 ⟨⟨fun _ => 0, 1, 0, -1⟩, ⟨fun _ => 0, 0, 0, -1⟩, 2, some 1, some 2, 2, 2⟩).readable = true) ↔
        ((avail 4 (⟨⟨fun _ => 0, 1, 0, -1⟩, ⟨fun _ => 0, 0, 0, -1⟩, 2, some 1, some 2, 2, 2⟩ : px).webuf ≠ 0 ∨
          ((⟨⟨fun _ => 0, 1, 0, -1⟩, ⟨fun _ => 0, 0, 0, -1⟩, 2, some 1, some 2, 2, 2⟩ : px).webuf.ridx : Int) = (⟨⟨fun _ => 0, 1, 0, -1⟩, ⟨fun _ => 0, 0, 0, -1⟩, 2, some 1, some 2, 2, 2⟩ : px).webuf.cidx) ∧
         (2 &&& O_ACCMODE) ≠ O_WRONLY ∧
         ((⟨⟨fun _ => 0, 1, 0, -1⟩, ⟨fun _ => 0, 0, 0, -1⟩, 2, some 1, some 2, 2, 2⟩ : px).westaccmode &&& O_ACCMODE) ≠ O_RDONLY))) :=
  C5_poll_readiness 4 2 2 ⟨⟨fun _ => 0, 1, 0, -1⟩, ⟨fun _ => 0, 0, 0, -1⟩, 2, some 1, some 2, 2, 2⟩
    (by decide) (by decide) (by decide) (by decide)

/-- C6: a connect attempt while both sides are occupied fails with Busy
and changes no channel state; otherwise (given the occupancy invariant
`open_count = sides present`) the connect succeeds and binds the new
identity to an unoccupied side, preferring the east (A) slot whenever
it is free, and leaving the other side's occupancy unchanged. -/
theorem C6_open_admission (fid f_flags : Nat) (dev : px)
    (hinv : dev.nopen = sideCount dev) :
    (dev.east ≠ none → dev.west ≠ none →
      proxy_open fid f_flags dev = (OpenOut.busy, dev)) ∧
    (dev.east = none →
      (proxy_open fid f_flags dev).1 = OpenOut.ok ∧
      (proxy_open fid f_flags dev).2.east = some fid ∧
      (proxy_open fid f_flags dev).2.west = dev.west) ∧
    (dev.east ≠ none → dev.west = none →
      (proxy_open fid f_flags dev).1 = OpenOut.ok ∧
      (proxy_open fid f_flags dev).2.west = some fid ∧
      (proxy_open fid f_flags dev).2.east = dev.east) := by
  unfold sideCount at hinv
  refine ⟨?_, ?_, ?_⟩
  · intro he hw
    have h2 : dev.nopen ≥ 2 := by
      rw [if_neg he, if_neg hw] at hinv
      omega
    unfold proxy_open
    rw [if_pos h2]
  · intro he
    have h2 : ¬ (dev.nopen ≥ 2) := by
      rw [if_pos he] at hinv
      split_ifs at hinv <;> omega
    unfold proxy_open
    rw [if_neg h2, if_pos (show ({ dev with nopen := dev.nopen + 1 } : px).east = none
      from by simpa using he)]
    exact ⟨rfl, rfl, rfl⟩
  · intro he hw
    have h2 : ¬ (dev.nopen ≥ 2) := by
      rw [if_neg he, if_pos hw] at hinv
      omega
    unfold proxy_open
    rw [if_neg h2,
      if_neg (show ¬ ({ dev with nopen := dev.nopen + 1 } : px).east = none
        from by simpa using he),
      if_pos (show ({ dev with nopen := dev.nopen + 1 } : px).west = none
        from by simpa using hw)]
    exact ⟨rfl, rfl, rfl⟩

/-- C6 witness: the theorem applied to a fresh device with both sides
free; the connect binds east, the preferred side. -/
theorem C6_open_admission_witness :
    ((⟨⟨fun _ => 0, 0, 0, -1⟩, ⟨fun _ => 0, 0, 0, -1⟩, 0, none, none, 0, 0⟩ : px).east ≠
        none →
      (⟨⟨fun _ => 0, 0, 0, -1⟩, ⟨fun _ => 0, 0, 0, -1⟩, 0, none, none, 0, 0⟩ : px).west ≠
        none →
      proxy_open 7 2 ⟨⟨fun _ => 0, 0, 0, -1⟩, ⟨fun _ => 0, 0, 0, -1⟩, 0, none, none, 0, 0⟩ =
        (OpenOut.busy,
          ⟨⟨fun _ => 0, 0, 0, -1⟩, ⟨fun _ => 0, 0, 0, -1⟩, 0, none, none, 0, 0⟩)) ∧
    ((⟨⟨fun _ => 0, 0, 0, -1⟩, ⟨fun _ => 0, 0, 0, -1⟩, 0, none, none, 0, 0⟩ : px).east =
        none →
      (proxy_open 7 2
        ⟨⟨fun _ => 0, 0, 0, -1⟩, ⟨fun _ => 0, 0, 0, -1⟩, 0, none, none, 0, 0⟩).1 =
        OpenOut.ok ∧
      (proxy_open 7 2
        ⟨⟨fun _ => 0, 0, 0, -1⟩, ⟨fun _ => 0, 0, 0, -1⟩, 0, none, none, 0, 0⟩).2.east =
        some 7 ∧
      (proxy_open 7 2
        ⟨⟨fun _ => 0, 0, 0, -1⟩, ⟨fun _ => 0, 0, 0, -1⟩, 0, none, none, 0, 0⟩).2.west =
        (⟨⟨fun _ => 0, 0, 0, -1⟩, ⟨fun _ => 0, 0, 0, -1⟩, 0, none, none, 0, 0⟩ : px).west) ∧
    ((⟨⟨fun _ => 0, 0, 0, -1⟩, ⟨fun _ => 0, 0, 0, -1⟩, 0, none, none, 0, 0⟩ : px).east ≠
        none →
      (⟨⟨fun _ => 0, 0, 0, -1⟩, ⟨fun _ => 0, 0, 0, -1⟩, 0, none, none, 0, 0⟩ : px).west =
        none →
      (proxy_open 7 2
        ⟨⟨fun _ => 0, 0, 0, -1⟩, ⟨fun _ => 0, 0, 0, -1⟩, 0, none, none, 0, 0⟩).1 =
        OpenOut.ok ∧
      (proxy_open 7 2
        ⟨⟨fun _ => 0, 0, 0, -1⟩, ⟨fun _ => 0, 0, 0, -1⟩, 0, none, none, 0, 0⟩).2.west =
        some 7 ∧
      (proxy_open 7 2
        ⟨⟨fun _ => 0, 0, 0, -1⟩, ⟨fun _ => 0, 0, 0, -1⟩, 0, none, none, 0, 0⟩).2.east =
        (⟨⟨fun _ => 0, 0, 0, -1⟩, ⟨fun _ => 0, 0, 0, -1⟩, 0, none, none, 0, 0⟩ : px).east) :=
  C6_open_admission 7 2
    ⟨⟨fun _ => 0, 0, 0, -1⟩, ⟨fun _ => 0, 0, 0, -1⟩, 0, none, none, 0, 0⟩ (by decide)

lemma memcpyIn_nil (d : Nat → Nat) (dst : Nat) : memcpyIn d dst [] = d := by
  funext j
  rw [memcpyIn_out _ _ _ _ (by simp; omega)]

/-- C7: a zero-length write issued by a connected endpoint that passes
the admission/space guard (peer connected, buffer not full) transfers 0
bytes and sets the buffer's close marker to the current write cursor,
leaving every other field of the device — in particular the side
occupancy and open count — unchanged, so the write is a soft-EOF
signal, not a no-op; and no write of positive length and no read ever
changes the close marker. -/
theorem C7_soft_eof (C : Nat) (e : Nat) (nb : Bool) (dev : px)
    (hC : 1 ≤ C) (hwlt : dev.ewbuf.widx < C)
    (he : dev.east = some e) (hn : dev.nopen = 2)
    (hnf : is_full C dev.ewbuf = false) :
    proxy_write C e [] nb dev =
      (WriteOut.ok 0,
       { dev with ewbuf := { dev.ewbuf with cidx := (dev.ewbuf.widx : Int) } }) ∧
    (∀ (q : cirbuf) (no : Int) (xs : List Nat) (nb2 : Bool), xs ≠ [] →
      (cirbuf_write C no xs nb2 q).2.cidx = q.cidx) ∧
    (∀ (q : cirbuf) (k : Nat) (nb2 : Bool), (cirbuf_read C k nb2 q).2.cidx = q.cidx) := by
  refine ⟨?_, ?_, ?_⟩
  · have hg : ¬ ((2 : Int) ≠ 2 ∨ is_full C dev.ewbuf = true) := by
      rw [hnf]
      simp
    have hbuf : cirbuf_write C 2 [] nb dev.ewbuf =
        (WriteOut.ok 0, { dev.ewbuf with cidx := (dev.ewbuf.widx : Int) }) := by
      rw [cirbuf_write_open C 2 [] nb dev.ewbuf hg]
      simp only [List.length_nil, Nat.zero_min, Nat.min_zero, List.take_nil,
        List.drop_nil, List.take_zero, Nat.zero_sub, memcpyIn_nil, Nat.add_zero,
        if_pos rfl]
      rw [if_neg (show ¬ (dev.ewbuf.widx > C - 1) from by omega)]
      simp
    rw [proxy_write_east C e [] nb dev he, hn, hbuf]
  · intro q no xs nb2 hxs
    have hlp := List.length_pos.mpr hxs
    unfold cirbuf_write
    split
    · rfl
    · dsimp only
      rw [if_neg (by omega)]
  · intro q k nb2
    unfold cirbuf_read
    split
    · rfl
    · split
      · rfl
      · rfl

/-- C7 witness: the theorem applied at `C = 4` to a device with one
byte already buffered east-to-west. -/
theorem C7_soft_eof_witness :
    proxy_write 4 1 [] true
        ⟨⟨fun _ => 0, 1, 0, -1⟩, ⟨fun _ => 0, 0, 0, -1⟩, 2, some 1, some 2, 2, 2⟩ =
      (WriteOut.ok 0,
       { (⟨⟨fun _ => 0, 1, 0, -1⟩, ⟨fun _ => 0, 0, 0, -1⟩, 2, some 1, some 2, 2, 2⟩ : px)
         with
         ewbuf := { (⟨⟨fun _ => 0, 1, 0, -1⟩, ⟨fun _ => 0, 0, 0, -1⟩, 2, some 1, some 2,
           2, 2⟩ : px).ewbuf with
           cidx := ((⟨⟨fun _ => 0, 1, 0, -1⟩, ⟨fun _ => 0, 0, 0, -1⟩, 2, some 1, some 2,
             2, 2⟩ : px).ewbuf.widx : Int) } }) ∧
    (∀ (q : cirbuf) (no : Int) (xs : List Nat) (nb2 : Bool), xs ≠ [] →
      (cirbuf_write 4 no xs nb2 q).2.cidx = q.cidx) ∧
    (∀ (q : cirbuf) (k : Nat) (nb2 : Bool), (cirbuf_read 4 k nb2 q).2.cidx = q.cidx) :=
  C7_soft_eof 4 1 true
    ⟨⟨fun _ => 0, 1, 0, -1⟩, ⟨fun _ => 0, 0, 0, -1⟩, 2, some 1, some 2, 2, 2⟩
    (by decide) (by decide) rfl rfl (by decide)

/-- C8: a successful connect (open count below 2) binding a side sets
the read cursor of that side's inbound buffer to that buffer's current
write cursor, clears both buffers' close markers to the open sentinel
`-1`, and leaves both buffers' write cursors, stored bytes, and the
outbound read cursor unchanged; stated for the east-binding case and
the west-binding case. -/
theorem C8_open_reset (fid f_flags : Nat) (dev : px) (hlt : dev.nopen < 2) :
    (dev.east = none →
      ((proxy_open fid f_flags dev).2.webuf.ridx = dev.webuf.widx ∧
       (proxy_open fid f_flags dev).2.ewbuf.cidx = -1 ∧
       (proxy_open fid f_flags dev).2.webuf.cidx = -1 ∧
       (proxy_open fid f_flags dev).2.ewbuf.widx = dev.ewbuf.widx ∧
       (proxy_open fid f_flags dev).2.webuf.widx = dev.webuf.widx ∧
       (proxy_open fid f_flags dev).2.ewbuf.buf = dev.ewbuf.buf ∧
       (proxy_open fid f_flags dev).2.webuf.buf = dev.webuf.buf ∧
       (proxy_open fid f_flags dev).2.ewbuf.ridx = dev.ewbuf.ridx)) ∧
    (dev.east ≠ none → dev.west = none →
      ((proxy_open fid f_flags dev).2.ewbuf.ridx = dev.ewbuf.widx ∧
       (proxy_open fid f_flags dev).2.ewbuf.cidx = -1 ∧
       (proxy_open fid f_flags dev).2.webuf.cidx = -1 ∧
       (proxy_open fid f_flags dev).2.ewbuf.widx = dev.ewbuf.widx ∧
       (proxy_open fid f_flags dev).2.webuf.widx = dev.webuf.widx ∧
       (proxy_open fid f_flags dev).2.ewbuf.buf = dev.ewbuf.buf ∧
       (proxy_open fid f_flags dev).2.webuf.buf = dev.webuf.buf ∧
       (proxy_open fid f_flags dev).2.webuf.ridx = dev.webuf.ridx)) := by
  constructor
  · intro he
    unfold proxy_open
    rw [if_neg (by omega),
      if_pos (show ({ dev with nopen := dev.nopen + 1 } : px).east = none
        from by simpa using he)]
    exact ⟨rfl, rfl, rfl, rfl, rfl, rfl, rfl, rfl⟩
  · intro he hw
    unfold proxy_open
    rw [if_neg (by omega),
      if_neg (show ¬ ({ dev with nopen := dev.nopen + 1 } : px).east = none
        from by simpa using he),
      if_pos (show ({ dev with nopen := dev.nopen + 1 } : px).west = none
        from by simpa using hw)]
    exact ⟨rfl, rfl, rfl, rfl, rfl, rfl, rfl, rfl⟩

/-- C8 witness: the theorem applied to a device whose east side is free
and whose buffers hold stale cursors and a stale close marker. -/
theorem C8_open_reset_witness :
    ((⟨⟨fun _ => 0, 2, 1, 2⟩, ⟨fun _ => 0, 3, 1, 3⟩, 1, none, some 5, 0, 2⟩ : px).east =
        none →
      ((proxy_open 7 2
          ⟨⟨fun _ => 0, 2, 1, 2⟩, ⟨fun _ => 0, 3, 1, 3⟩, 1, none, some 5, 0, 2⟩).2.webuf.ridx =
        (⟨⟨fun _ => 0, 2, 1, 2⟩, ⟨fun _ => 0, 3, 1, 3⟩, 1, none, some 5, 0, 2⟩ : px).webuf.widx ∧
       (proxy_open 7 2
          ⟨⟨fun _ => 0, 2, 1, 2⟩, ⟨fun _ => 0, 3, 1, 3⟩, 1, none, some 5, 0, 2⟩).2.ewbuf.cidx = -1 ∧
       (proxy_open 7 2
          ⟨⟨fun _ => 0, 2, 1, 2⟩, ⟨fun _ => 0, 3, 1, 3⟩, 1, none, some 5, 0, 2⟩).2.webuf.cidx = -1 ∧
       (proxy_open 7 2
          ⟨⟨fun _ => 0, 2, 1, 2⟩, ⟨fun _ => 0, 3, 1, 3⟩, 1, none, some 5, 0, 2⟩).2.ewbuf.widx =
        (⟨⟨fun _ => 0, 2, 1, 2⟩, ⟨fun _ => 0, 3, 1, 3⟩, 1, none, some 5, 0, 2⟩ : px).ewbuf.widx ∧
       (proxy_open 7 2
          ⟨⟨fun _ => 0, 2, 1, 2⟩, ⟨fun _ => 0, 3, 1, 3⟩, 1, none, some 5, 0, 2⟩).2.webuf.widx =
        (⟨⟨fun _ => 0, 2, 1, 2⟩, ⟨fun _ => 0, 3, 1, 3⟩, 1, none, some 5, 0, 2⟩ : px).webuf.widx ∧
       (proxy_open 7 2
          ⟨⟨fun _ => 0, 2, 1, 2⟩, ⟨fun _ => 0, 3, 1, 3⟩, 1, none, some 5, 0, 2⟩).2.ewbuf.buf =
        (⟨⟨fun _ => 0, 2, 1, 2⟩, ⟨fun _ => 0, 3, 1, 3⟩, 1, none, some 5, 0, 2⟩ : px).ewbuf.buf ∧
       (proxy_open 7 2
          ⟨⟨fun _ => 0, 2, 1, 2⟩, ⟨fun _ => 0, 3, 1, 3⟩, 1, none, some 5, 0, 2⟩).2.webuf.buf =
        (⟨⟨fun _ => 0, 2, 1, 2⟩, ⟨fun _ => 0, 3, 1, 3⟩, 1, none, some 5, 0, 2⟩ : px).webuf.buf ∧
       (proxy_open 7 2
          ⟨⟨fun _ => 0, 2, 1, 2⟩, ⟨fun _ => 0, 3, 1, 3⟩, 1, none, some 5, 0, 2⟩).2.ewbuf.ridx =
        (⟨⟨fun _ => 0, 2, 1, 2⟩, ⟨fun _ => 0, 3, 1, 3⟩, 1, none, some 5, 0, 2⟩ : px).ewbuf.ridx)) ∧
    ((⟨⟨fun _ => 0, 2, 1, 2⟩, ⟨fun _ => 0, 3, 1, 3⟩, 1, none, some 5, 0, 2⟩ : px).east ≠
        none →
      (⟨⟨fun _ => 0, 2, 1, 2⟩, ⟨fun _ => 0, 3, 1, 3⟩, 1, none, some 5, 0, 2⟩ : px).west =
        none →
      ((proxy_open 7 2
          ⟨⟨fun _ => 0, 2, 1, 2⟩, ⟨fun _ => 0, 3, 1, 3⟩, 1, none, some 5, 0, 2⟩).2.ewbuf.ridx =
        (⟨⟨fun _ => 0, 2, 1, 2⟩, ⟨fun _ => 0, 3, 1, 3⟩, 1, none, some 5, 0, 2⟩ : px).ewbuf.widx ∧
       (proxy_open 7 2
          ⟨⟨fun _ => 0, 2, 1, 2⟩, ⟨fun _ => 0, 3, 1, 3⟩, 1, none, some 5, 0, 2⟩).2.ewbuf.cidx = -1 ∧
       (proxy_open 7 2
          ⟨⟨fun _ => 0, 2, 1, 2⟩, ⟨fun _ => 0, 3, 1, 3⟩, 1, none, some 5, 0, 2⟩).2.webuf.cidx = -1 ∧
       (proxy_open 7 2
          ⟨⟨fun _ => 0, 2, 1, 2⟩, ⟨fun _ => 0, 3, 1, 3⟩, 1, none, some 5, 0, 2⟩).2.ewbuf.widx =
        (⟨⟨fun _ => 0, 2, 1, 2⟩, ⟨fun _ => 0, 3, 1, 3⟩, 1, none, some 5, 0, 2⟩ : px).ewbuf.widx ∧
       (proxy_open 7 2
          ⟨⟨fun _ => 0, 2, 1, 2⟩, ⟨fun _ => 0, 3, 1, 3⟩, 1, none, some 5, 0, 2⟩).2.webuf.widx =
        (⟨⟨fun _ => 0, 2, 1, 2⟩, ⟨fun _ => 0, 3, 1, 3⟩, 1, none, some 5, 0, 2⟩ : px).webuf.widx ∧
       (proxy_open 7 2
          ⟨⟨fun _ => 0, 2, 1, 2⟩, ⟨fun _ => 0, 3, 1, 3⟩, 1, none, some 5, 0, 2⟩).2.ewbuf.buf =
        (⟨⟨fun _ => 0, 2, 1, 2⟩, ⟨fun _ => 0, 3, 1, 3⟩, 1, none, some 5, 0, 2⟩ : px).ewbuf.buf ∧
       (proxy_open 7 2
          ⟨⟨fun _ => 0, 2, 1, 2⟩, ⟨fun _ => 0, 3, 1, 3⟩, 1, none, some 5, 0, 2⟩).2.webuf.buf =
        (⟨⟨fun _ => 0, 2, 1, 2⟩, ⟨fun _ => 0, 3, 1, 3⟩, 1, none, some 5, 0, 2⟩ : px).webuf.buf ∧
       (proxy_open 7 2
          ⟨⟨fun _ => 0, 2, 1, 2⟩, ⟨fun _ => 0, 3, 1, 3⟩, 1, none, some 5, 0, 2⟩).2.webuf.ridx =
        (⟨⟨fun _ => 0, 2, 1, 2⟩, ⟨fun _ => 0, 3, 1, 3⟩, 1, none, some 5, 0, 2⟩ : px).webuf.ridx)) :=
  C8_open_reset 7 2
    ⟨⟨fun _ => 0, 2, 1, 2⟩, ⟨fun _ => 0, 3, 1, 3⟩, 1, none, some 5, 0, 2⟩ (by decide)

/-- C9: in non-blocking mode a read on an empty buffer that is not at
EOF fails with `WouldBlock` and changes nothing; a write issued while
the peer is not connected (`nopen` different from 2) or the buffer is
full fails with `WouldBlock` and changes nothing — in particular the
write fails with `WouldBlock` when the peer is absent even though the
buffer has free space. -/
theorem C9_nonblock (C : Nat) (p : cirbuf) (cnt : Nat) (xs : List Nat) (no : Int) :
    (p.ridx = p.widx → (p.ridx : Int) ≠ p.cidx →
      cirbuf_read C cnt true p = (ReadOut.wouldBlock, p)) ∧
    (no ≠ 2 ∨ is_full C p = true →
      cirbuf_write C no xs true p = (WriteOut.wouldBlock, p)) ∧
    (no ≠ 2 → is_full C p = false →
      cirbuf_write C no xs true p = (WriteOut.wouldBlock, p)) := by
  refine ⟨?_, ?_, ?_⟩
  · intro h2 h1
    rw [cirbuf_read_empty C cnt true p h1 h2]
    simp
  · intro hg
    rw [cirbuf_write_blocked C no xs true p hg]
    simp
  · intro hno hnf
    rw [cirbuf_write_blocked C no xs true p (Or.inl hno)]
    simp

/-- C9 witness: the theorem applied at `C = 4` to the empty open
buffer, reading with count 3 and writing one byte with no peer
(`nopen = 1`). -/
theorem C9_nonblock_witness :
    ((⟨fun _ => 0, 0, 0, -1⟩ : cirbuf).ridx = (⟨fun _ => 0, 0, 0, -1⟩ : cirbuf).widx →
      ((⟨fun _ => 0, 0, 0, -1⟩ : cirbuf).ridx : Int) ≠
        (⟨fun _ => 0, 0, 0, -1⟩ : cirbuf).cidx →
      cirbuf_read 4 3 true ⟨fun _ => 0, 0, 0, -1⟩ =
        (ReadOut.wouldBlock, ⟨fun _ => 0, 0, 0, -1⟩)) ∧
    ((1 : Int) ≠ 2 ∨ is_full 4 ⟨fun _ => 0, 0, 0, -1⟩ = true →
      cirbuf_write 4 1 [9] true ⟨fun _ => 0, 0, 0, -1⟩ =
        (WriteOut.wouldBlock, ⟨fun _ => 0, 0, 0, -1⟩)) ∧
    ((1 : Int) ≠ 2 → is_full 4 ⟨fun _ => 0, 0, 0, -1⟩ = false →
      cirbuf_write 4 1 [9] true ⟨fun _ => 0, 0, 0, -1⟩ =
        (WriteOut.wouldBlock, ⟨fun _ => 0, 0, 0, -1⟩)) :=
  C9_nonblock 4 ⟨fun _ => 0, 0, 0, -1⟩ 3 [9] 1

/-- C10: a read or write whose endpoint identity matches neither the
east nor the west slot returns 0 bytes transferred as a success (not an
error code) and leaves the entire device state unchanged. -/
theorem C10_unmatched_endpoint (C fid cnt : Nat) (xs : List Nat) (nb : Bool) (dev : px)
    (he : dev.east ≠ some fid) (hw : dev.west ≠ some fid) :
    proxy_read C fid cnt nb dev = (ReadOut.ok [], dev) ∧
    proxy_write C fid xs nb dev = (WriteOut.ok 0, dev) := by
  constructor
  · unfold proxy_read
    rw [if_neg he, if_neg hw]
  · unfold proxy_write
    rw [if_neg he, if_neg hw]

/-- C10 witness: the theorem applied at `C = 4` with identity 9, which
occupies neither side of the device. -/
theorem C10_unmatched_endpoint_witness :
    proxy_read 4 9 3 true
        ⟨⟨fun _ => 0, 1, 0, -1⟩, ⟨fun _ => 0, 0, 0, -1⟩, 2, some 1, some 2, 2, 2⟩ =
      (ReadOut.ok [],
        ⟨⟨fun _ => 0, 1, 0, -1⟩, ⟨fun _ => 0, 0, 0, -1⟩, 2, some 1, some 2, 2, 2⟩) ∧
    proxy_write 4 9 [7] true
        ⟨⟨fun _ => 0, 1, 0, -1⟩, ⟨fun _ => 0, 0, 0, -1⟩, 2, some 1, some 2, 2, 2⟩ =
      (WriteOut.ok 0,
        ⟨⟨fun _ => 0, 1, 0, -1⟩, ⟨fun _ => 0, 0, 0, -1⟩, 2, some 1, some 2, 2, 2⟩) :=
  C10_unmatched_endpoint 4 9 3 [7] true
    ⟨⟨fun _ => 0, 1, 0, -1⟩, ⟨fun _ => 0, 0, 0, -1⟩, 2, some 1, some 2, 2, 2⟩
    (by decide) (by decide)
